import Mathlib

/-!
Verification of the query-construction core of the `nestjs-paginate` fork.

The TypeScript sources are embedded shallowly:

* JavaScript strings are Lean `String`s; `split`, `join`, `includes`,
  `startsWith` and single-occurrence `replace` are implemented on the
  underlying `List Char` so that their algebra is provable.
* JavaScript `undefined` is `Option.none`; the `||` operator on numbers
  (falsy on `0` and `undefined`) and the `??` operator are explicit helpers.
* The TypeORM query-builder collaborator is an abstract record: entity
  metadata (relations, embeddeds, virtual columns, primary keys), the
  predicate compiler, and the three execution calls are fields of model
  structures, since the spec treats them as external interfaces.
* Thrown exceptions are `Except` results.

Every definition mirrors one function of the repository; the section
comments name the file and lines it was translated from.
-/

/-! ## JavaScript semantics helpers -/

/-- String interpolation of a possibly-`undefined` value: JavaScript renders
`undefined` as the string `"undefined"` inside a template literal. -/
def jsStr (o : Option String) : String := o.getD "undefined"

/-- Models `v || d` on numbers: both `undefined` and `0` are falsy. -/
def jsOrNum (v : Option Int) (d : Int) : Int :=
  match v with
  | none => d
  | some x => if x = 0 then d else x

/-- Models `v ?? d` (nullish coalescing). -/
def jsNullish (v : Option Int) (d : Int) : Int := v.getD d

/-- Models `Math.ceil(a / b)` for integer arguments and `b ≠ 0`. -/
def jsCeilDiv (a b : Int) : Int := -((-a).fdiv b)

/-- Truthiness of an optional string: `undefined` and `""` are falsy. -/
def jsTruthy (s : Option String) : Bool :=
  match s with
  | none => false
  | some x => x ≠ ""

/-- Models `xs?.length` on an optional array. -/
def optLen (l : Option (List α)) : Option Nat := l.map List.length

/-! ## String primitives (JavaScript `String.prototype` methods) -/

/-- Models `s.split(sep)` for a one-character separator. -/
def splitChar (sep : Char) (s : String) : List String :=
  (s.data.splitOn sep).map String.mk

/-- Models `parts.join(sep)`. -/
def joinStrings (sep : String) (parts : List String) : String :=
  ⟨List.intercalate sep.data (parts.map String.data)⟩

/-- Models `s.includes(c)` for a one-character needle. -/
def containsChar (c : Char) (s : String) : Bool := s.data.contains c

/-- Models `s.startsWith(c)` for a one-character needle. -/
def startsWithChar (c : Char) (s : String) : Bool := s.data.head? == some c

/-- Removes the first occurrence of a character, as JavaScript
`s.replace(c, '')` does with a plain string pattern. -/
def removeFirst (c : Char) : List Char → List Char
  | [] => []
  | x :: xs => if x = c then xs else x :: removeFirst c xs

/-- Models `s.replace(c, '')` (first occurrence only). -/
def removeFirstChar (c : Char) (s : String) : String := ⟨removeFirst c s.data⟩

/-- Models `s.toUpperCase()` (character-wise, which matches the ASCII column
and direction tokens the source compares against). -/
def toUpperJs (s : String) : String := ⟨s.data.map Char.toUpper⟩

theorem string_data_append (s t : String) : (s ++ t).data = s.data ++ t.data := by
  cases s; cases t; rfl

theorem string_mk_inj {a b : List Char} (h : String.mk a = String.mk b) : a = b := by
  injection h

/-! ## Column Path Resolver — `src/helper.ts`

`getPropertiesByColumnName` (`src/helper.ts` lines 18–42) splits a dotted
column reference; `fixColumnAlias` (`src/helper.ts` lines 102–143) computes
the SQL alias from the classification flags.  The `query` argument models the
optional custom-expression function of a virtual column's metadata. -/

structure ColumnProperties where
  propertyPath : Option String
  propertyName : String
  isNested : Bool
  column : String
deriving Repr, DecidableEq

def getPropertiesByColumnName (column : String) : ColumnProperties :=
  let propertyPath := splitChar '.' column
  if propertyPath.length ≤ 1 then
    { propertyPath := none, propertyName := propertyPath.headD "", isNested := false,
      column := propertyPath.headD "" }
  else
    let propertyNamePath := propertyPath.drop 1
    let joined := joinStrings "." propertyNamePath
    let isNested := !startsWithChar '(' joined && decide (1 < propertyNamePath.length)
    let propertyName := removeFirstChar ')' (removeFirstChar '(' joined)
    { propertyPath := some (propertyPath.headD "")
      propertyName := propertyName
      isNested := isNested
      column := propertyPath.headD "" ++ "." ++ propertyName }

def fixColumnAlias (properties : ColumnProperties) (aliasName : String)
    (isRelation : Bool := false) (isVirtualProperty : Bool := false)
    (isEmbedded : Bool := false) (query : Option (String → String) := none) : String :=
  if isVirtualProperty then
    match query with
    | some q => "(" ++ q aliasName ++ ")"
    | none => aliasName ++ "_" ++ properties.propertyName
  else if isEmbedded then
    aliasName ++ "." ++ jsStr properties.propertyPath ++ "." ++ properties.propertyName
  else if !isRelation then
    properties.propertyName
  else if isVirtualProperty && query.isSome then
    -- kept verbatim from the source; unreachable because the
    -- `isVirtualProperty` branch above already returned
    "(" ++ (query.getD id) (aliasName ++ "_" ++ jsStr properties.propertyPath ++ "_rel") ++ ")"
  else if (isVirtualProperty && query.isNone) || properties.isNested then
    if containsChar '.' properties.propertyName then
      let propertyPath := splitChar '.' properties.propertyName
      let nestedRelations := joinStrings "_" (propertyPath.dropLast.map (fun v => v ++ "_rel"))
      let nestedCol := propertyPath.getLastD ""
      aliasName ++ "_" ++ jsStr properties.propertyPath ++ "_rel_" ++ nestedRelations ++ "." ++ nestedCol
    else
      aliasName ++ "_" ++ jsStr properties.propertyPath ++ "_rel_" ++ properties.propertyName
  else
    aliasName ++ "_" ++ jsStr properties.propertyPath ++ "_rel." ++ properties.propertyName

example : getPropertiesByColumnName "a.b.c.d" =
    { propertyPath := some "a", propertyName := "b.c.d", isNested := true,
      column := "a.b.c.d" } := by rfl

example : getPropertiesByColumnName "id" =
    { propertyPath := none, propertyName := "id", isNested := false, column := "id" } := by rfl

example : getPropertiesByColumnName "profile.(address.street)" =
    { propertyPath := some "profile", propertyName := "address.street", isNested := false,
      column := "profile.address.street" } := by rfl

example :
    fixColumnAlias (getPropertiesByColumnName "a.b.c.d") "__root" true false false none =
      "__root_a_rel_b_rel_c_rel.d" := by rfl

example :
    fixColumnAlias (getPropertiesByColumnName "friend.name") "__root" true false false none =
      "__root_friend_rel.name" := by rfl

/-! ## Data model — `src/types.ts` and `src/decorator.ts`

`PaginateQuery` is the structured query object; optional members model the
`?` fields.  `PaginateConfig` keeps only the members the verified components
read.  Boolean config flags that the source merely tests for truthiness are
plain `Bool` (JavaScript `undefined` is falsy). -/

inductive FilterValue where
  | single (s : String)
  | multiple (ss : List String)
deriving Repr, DecidableEq

/-- A filter map `column → string | string[]`, in insertion order. -/
def FilterMap := List (String × FilterValue)
deriving Repr, DecidableEq

structure PaginateQuery where
  page : Option Int := none
  limit : Option Int := none
  sortBy : Option (List (String × String)) := none
  searchBy : Option (List String) := none
  search : Option String := none
  filter : Option FilterMap := none
  select : Option (List String) := none
  path : Option String := none

inductive PaginationType where
  | limitAndOffset
  | takeAndSkip
deriving Repr, DecidableEq

inductive NullSortOption where
  | first
  | last
deriving Repr, DecidableEq

structure PaginateConfig where
  sortableColumns : List String := []
  nullSort : Option NullSortOption := none
  searchableColumns : Option (List String) := none
  select : Option (List String) := none
  maxLimit : Option Int := none
  defaultSortBy : Option (List (String × String)) := none
  defaultLimit : Option Int := none
  paginationType : Option PaginationType := none
  relativePath : Bool := false
  origin : Option String := none
  ignoreSearchByInQueryParam : Bool := false
  ignoreSelectInQueryParam : Bool := false

namespace PaginationLimit

def NO_PAGINATION : Int := -1

def COUNTER_ONLY : Int := 0

def DEFAULT_LIMIT : Int := 20

def DEFAULT_MAX_LIMIT : Int := 100

end PaginationLimit

/-! ## Pagination Calculator — `src/paginate.ts` lines 244–268 -/

/-- `NestJsPaginate.isPaginated` (`src/paginate.ts` lines 244–253). -/
def isPaginated (q : PaginateQuery) (c : PaginateConfig) : Bool :=
  let maxLimit := jsOrNum c.maxLimit PaginationLimit.DEFAULT_MAX_LIMIT
  if q.limit = some PaginationLimit.COUNTER_ONLY then false
  else if q.limit = some PaginationLimit.NO_PAGINATION ∧ maxLimit = PaginationLimit.NO_PAGINATION then false
  else true

/-- `NestJsPaginate.paginationLimit` (`src/paginate.ts` lines 255–268). -/
def paginationLimit (q : PaginateQuery) (c : PaginateConfig) : Int :=
  if q.limit = some PaginationLimit.COUNTER_ONLY then PaginationLimit.COUNTER_ONLY
  else
    let defaultLimit := jsOrNum c.defaultLimit PaginationLimit.DEFAULT_LIMIT
    let maxLimit := jsOrNum c.maxLimit PaginationLimit.DEFAULT_MAX_LIMIT
    if !(isPaginated q c) then defaultLimit
    else if maxLimit = PaginationLimit.NO_PAGINATION then jsNullish q.limit defaultLimit
    else if q.limit = some PaginationLimit.NO_PAGINATION then defaultLimit
    else min (jsNullish q.limit defaultLimit) maxLimit

/-- Stated from the spec's words (§4.6), for comparison with `isPaginated`:
`isPaginated = false` iff `query.limit == COUNTER_ONLY`, or
(`query.limit == NO_PAGINATION` and the effective `maxLimit == NO_PAGINATION`). -/
def specIsPaginated (q : PaginateQuery) (c : PaginateConfig) : Bool :=
  !(q.limit = some PaginationLimit.COUNTER_ONLY ∨
    (q.limit = some PaginationLimit.NO_PAGINATION ∧
      jsOrNum c.maxLimit PaginationLimit.DEFAULT_MAX_LIMIT = PaginationLimit.NO_PAGINATION))

/-- Stated from the spec's words (§4.6), for comparison with
`paginationLimit`: the claimed case table for the effective limit. -/
def specEffectiveLimit (q : PaginateQuery) (c : PaginateConfig) : Int :=
  let defaultLimit := jsOrNum c.defaultLimit PaginationLimit.DEFAULT_LIMIT
  let maxLimit := jsOrNum c.maxLimit PaginationLimit.DEFAULT_MAX_LIMIT
  if q.limit = some PaginationLimit.COUNTER_ONLY then PaginationLimit.COUNTER_ONLY
  else if !(specIsPaginated q c) then defaultLimit
  else if maxLimit = PaginationLimit.NO_PAGINATION then jsNullish q.limit defaultLimit
  else if q.limit = some PaginationLimit.NO_PAGINATION then defaultLimit
  else min (jsNullish q.limit defaultLimit) maxLimit

/-- C1: for every query and config, `isPaginated` is `false` exactly when
`query.limit` is `COUNTER_ONLY`, or `query.limit` is `NO_PAGINATION` while the
effective `maxLimit` is `NO_PAGINATION`; and `paginationLimit` equals the
spec's effective-limit case table (`specEffectiveLimit`). -/
theorem C1_pagination_calculator (q : PaginateQuery) (c : PaginateConfig) :
    (isPaginated q c = false ↔
      (q.limit = some PaginationLimit.COUNTER_ONLY ∨
        (q.limit = some PaginationLimit.NO_PAGINATION ∧
          jsOrNum c.maxLimit PaginationLimit.DEFAULT_MAX_LIMIT = PaginationLimit.NO_PAGINATION))) ∧
    paginationLimit q c = specEffectiveLimit q c := by
  constructor
  · unfold isPaginated
    split_ifs <;> simp_all
  · unfold paginationLimit specEffectiveLimit specIsPaginated isPaginated
    split_ifs <;> simp_all

/-! ## Query-builder metadata model — external TypeORM interface

The spec's §6 external interface: entity-metadata lookups and the dialect
identifier.  The `virtualMeta` function stands for
`metadata.findColumnWithPropertyPath(...)` / `metadata.columns.find(...)`
as read by `extractVirtualProperty` (`src/helper.ts` lines 44–59). -/

structure VirtualMeta where
  isVirtualProperty : Bool
  query : Option (String → String)

structure EntityMetaModel where
  aliasName : String
  dbType : String
  relationPaths : List String
  embeddedPaths : List String
  virtualMeta : Option String → String → Option VirtualMeta
  primaryColumns : List String

/-- `isEntityKey` (`src/helper.ts` lines 6–8). -/
def isEntityKey (entityColumns : List String) (column : String) : Bool :=
  entityColumns.contains column

/-- `checkIsRelation` (`src/helper.ts` lines 80–85): `false` on a missing or
empty property path, otherwise a metadata lookup. -/
def checkIsRelation (qb : EntityMetaModel) (propertyPath : Option String) : Bool :=
  match propertyPath with
  | none => false
  | some p => if p = "" then false else qb.relationPaths.contains p

/-- `checkIsEmbedded` (`src/helper.ts` lines 87–92). -/
def checkIsEmbedded (qb : EntityMetaModel) (propertyPath : Option String) : Bool :=
  match propertyPath with
  | none => false
  | some p => if p = "" then false else qb.embeddedPaths.contains p

/-- `extractVirtualProperty` (`src/helper.ts` lines 44–59): the metadata
column found for the properties, or `{isVirtualProperty: false}`. -/
def extractVirtualProperty (qb : EntityMetaModel) (props : ColumnProperties) : VirtualMeta :=
  (qb.virtualMeta props.propertyPath props.propertyName).getD ⟨false, none⟩

/-! ## Sort Engine — `src/paginate.ts` lines 162–242 -/

/-- The acceptance filter of `NestJsPaginate.getSortableColumns`
(`src/paginate.ts` lines 166–174): each requested entry is pushed unless the
source's drop condition `!isValidColumn && isValidSortBy` holds. -/
def acceptedSortEntries (q : PaginateQuery) (c : PaginateConfig) : List (String × String) :=
  (q.sortBy.getD []).filter fun order =>
    let isValidColumn := isEntityKey c.sortableColumns order.1
    let isValidSortBy := ["ASC", "DESC"].contains (toUpperJs order.2)
    !(!isValidColumn && isValidSortBy)

/-- `NestJsPaginate.getSortableColumns` (`src/paginate.ts` lines 162–183).
When no requested entry survives, the first entry of
`defaultSortBy || [[sortableColumns[0], 'ASC']]` is pushed; `headD "undefined"`
models the JavaScript `undefined` read of `sortableColumns[0]`, which is only
reachable when `sortableColumns` is empty (`applySorting` then raises before
the value is used). -/
def getSortableColumns (q : PaginateQuery) (c : PaginateConfig) : List (String × String) :=
  let sortBy := acceptedSortEntries q c
  if sortBy.isEmpty then
    let defaultSortBy := c.defaultSortBy.getD [(c.sortableColumns.headD "undefined", "ASC")]
    defaultSortBy.take 1
  else sortBy

inductive ExceptionClass where
  | serviceUnavailable
deriving Repr, DecidableEq

inductive LogLevel where
  | debug
deriving Repr, DecidableEq

structure PaginateError where
  exceptionClass : ExceptionClass
  message : String
  loggedAt : Option LogLevel
deriving Repr, DecidableEq

/-- One `addOrderBy(sort, order = 'ASC', nulls?)` call on the query builder. -/
structure OrderByCall where
  sort : String
  order : String := "ASC"
  nulls : Option String := none
deriving Repr, DecidableEq

/-- `NestJsPaginate.applySorting` (`src/paginate.ts` lines 185–242), as the
list of `addOrderBy` calls it issues, or the thrown exception. -/
def applySorting (q : PaginateQuery) (c : PaginateConfig) (qb : EntityMetaModel) :
    Except PaginateError (List OrderByCall) :=
  let isMMDb := qb.dbType = "mariadb" || qb.dbType = "mysql"
  let nullSort : Option String :=
    match c.nullSort with
    | none => none
    | some ns =>
      if isMMDb then some (if ns = .last then "IS NULL" else "IS NOT NULL")
      else some (if ns = .last then "NULLS LAST" else "NULLS FIRST")
  if c.sortableColumns.length < 1 then
    .error { exceptionClass := .serviceUnavailable,
             message := "Missing required 'sortableColumns' config.",
             loggedAt := some .debug }
  else
    .ok ((getSortableColumns q c).flatMap fun order =>
      let columnProperties := getPropertiesByColumnName order.1
      let vm := extractVirtualProperty qb columnProperties
      let isRelation := checkIsRelation qb columnProperties.propertyPath
      let isEmbedded := checkIsEmbedded qb columnProperties.propertyPath
      let a := fixColumnAlias columnProperties qb.aliasName isRelation vm.isVirtualProperty isEmbedded none
      if isMMDb then
        let a := if vm.isVirtualProperty then "`" ++ a ++ "`" else a
        (match nullSort with
         | some ns => [{ sort := a ++ " " ++ ns }]
         | none => []) ++ [{ sort := a, order := order.2 }]
      else
        let a := if vm.isVirtualProperty then "\"" ++ a ++ "\"" else a
        [{ sort := a, order := order.2, nulls := nullSort }])

/-- A concrete metadata model used to instantiate theorems: a root entity
with primary key `id`, one relation `friend`, no embeddeds, no virtual
columns, on a Postgres connection. -/
def sampleMeta : EntityMetaModel where
  aliasName := "__root"
  dbType := "postgres"
  relationPaths := ["friend"]
  embeddedPaths := []
  virtualMeta := fun _ _ => none
  primaryColumns := ["id"]

/-- C3: the claim says a requested sort entry is accepted only if its column
is sortable and its upper-cased direction is exactly `ASC` or `DESC`.  The
code's drop condition (`src/paginate.ts` line 171) is
`!isValidColumn && isValidSortBy`, so the entry `("id", "UP")` — valid
column, invalid direction — is accepted into the applied sort list, and so is
`("bogus", "sideways")` — invalid column, invalid direction.  The earlier
revision (`src/unnamed/part_002` lines 160–170) implements the claimed
check `isValidColumn && direction ∈ {ASC, DESC}`, showing the intent; the
shipped condition is a boolean slip, hence a code bug. -/
theorem C3_sort_validation_code_eval :
    (["ASC", "DESC"].contains (toUpperJs "UP") = false) ∧
    acceptedSortEntries
      { sortBy := some [("id", "UP"), ("bogus", "sideways"), ("bogus", "asc")] }
      { sortableColumns := ["id"] } = [("id", "UP"), ("bogus", "sideways")] := by
  constructor
  · rfl
  · rfl

/-- C7: with an empty `sortableColumns` list the sort stage fails with a
service-unavailable-class exception logged at debug level; with a non-empty
list it never raises that exception. -/
theorem C7_empty_sortable_columns_fatal (q : PaginateQuery) (c : PaginateConfig)
    (qb : EntityMetaModel) :
    (c.sortableColumns = [] →
      applySorting q c qb = .error
        { exceptionClass := .serviceUnavailable,
          message := "Missing required 'sortableColumns' config.",
          loggedAt := some .debug }) ∧
    (c.sortableColumns ≠ [] → ∃ calls, applySorting q c qb = .ok calls) := by
  constructor
  · intro h
    unfold applySorting
    simp [h]
  · intro h
    unfold applySorting
    have : ¬ c.sortableColumns.length < 1 := by
      cases hc : c.sortableColumns with
      | nil => exact absurd hc h
      | cons a l => simp [hc]
    rw [if_neg this]
    exact ⟨_, rfl⟩

/-- C7 witness: the theorem instantiated at an empty and at a non-empty
configuration. -/
theorem C7_empty_sortable_columns_fatal_witness :
    applySorting {} { sortableColumns := [] } sampleMeta = .error
      { exceptionClass := .serviceUnavailable,
        message := "Missing required 'sortableColumns' config.",
        loggedAt := some .debug } ∧
    ∃ calls, applySorting {} { sortableColumns := ["id"] } sampleMeta = .ok calls :=
  ⟨(C7_empty_sortable_columns_fatal {} { sortableColumns := [] } sampleMeta).1 rfl,
   (C7_empty_sortable_columns_fatal {} { sortableColumns := ["id"] } sampleMeta).2 (by simp)⟩

/-- C4 counterexample: the claim's alias table fails on the code at two
concrete inputs.  A plain column `id` resolves to `"id"`, not
`"__root.id"` (`src/helper.ts` line 119 returns the bare property name); and
a relation column that is virtual with a custom expression resolves to the
expression applied to the root alias `__root`, not to `__root_friend_rel`,
because the `isVirtualProperty` branch at the top of `fixColumnAlias`
returns first, leaving the `alias_propertyPath_rel` branch unreachable. -/
theorem C4_alias_table_counterexample :
    fixColumnAlias
        { propertyPath := none, propertyName := "id", isNested := false, column := "id" }
        "__root" false false false none ≠ "__root.id" ∧
    fixColumnAlias
        { propertyPath := some "friend", propertyName := "score", isNested := false,
          column := "friend.score" }
        "__root" true true false (some (fun a => "SUM(" ++ a ++ ".x)")) =
      "(SUM(__root.x))" ∧
    ("(SUM(__root.x))" : String) ≠ "(SUM(__root_friend_rel.x))" := by
  refine ⟨by decide, by rfl, by decide⟩

/-- C4 amended: in the code's alias table, a plain column (not relation, not
embedded, not virtual) yields the bare `propertyName` without the alias
prefix, and a virtual column with a custom expression function — whether or
not it is a relation or embedded — yields the expression applied to the root
alias, wrapped in parentheses. -/
theorem C4_alias_table_amended (props : ColumnProperties) (aliasName : String)
    (q : String → String) :
    fixColumnAlias props aliasName false false false none = props.propertyName ∧
    ∀ isRelation isEmbedded,
      fixColumnAlias props aliasName isRelation true isEmbedded (some q) =
        "(" ++ q aliasName ++ ")" := by
  constructor
  · rfl
  · intro isRelation isEmbedded
    rfl

/-! ## Execution collaborator and result assembly

`QueryExecutor` models the two boundary calls into the ORM: the rows the
built query would return, and the row count under the same `WHERE` clause
(`getCount` / `getManyAndCount` both count, `getMany` fetches).  The list of
`ExecCall`s records which boundary calls were issued. -/

inductive ExecCall where
  | getCount
  | getManyAndCount
  | getMany
deriving Repr, DecidableEq

structure QueryExecutor (T : Type) where
  getManyResult : List T
  countResult : Int

/-- `fetchRecords` (`src/common/fetch.ts` lines 4–30): count-only, paginated
or fetch-all, together with the boundary calls issued. -/
def fetchRecords (q : PaginateQuery) (c : PaginateConfig) (ex : QueryExecutor T) :
    (List T × Int) × List ExecCall :=
  if q.limit = some PaginationLimit.COUNTER_ONLY then
    (([], ex.countResult), [ExecCall.getCount])
  else if isPaginated q c then
    ((ex.getManyResult, ex.countResult), [ExecCall.getManyAndCount])
  else
    ((ex.getManyResult, (ex.getManyResult.length : Int)), [ExecCall.getMany])

/-- `includesAllPrimaryKeyColumns` (`src/helper.ts` lines 60–68): `false` on
a missing list, otherwise every primary-key property path must be present. -/
def includesAllPrimaryKeyColumns (qb : EntityMetaModel)
    (propertyPath : Option (List String)) : Bool :=
  match propertyPath with
  | none => false
  | some ps => qb.primaryColumns.all fun col => ps.contains col

/-- Result of `NestJsPaginate.applyColumnsSelection`: the memoised
`selectableColumns` and the argument of the single `select(cols)` call, or
`none` when the stage returned without touching the builder's projection. -/
structure SelectionResult where
  selectableColumns : Option (List String)
  selectCall : Option (List String)
deriving Repr, DecidableEq

/-- `NestJsPaginate.applyColumnsSelection` (`src/paginate.ts` lines 124–152). -/
def applyColumnsSelection (q : PaginateQuery) (c : PaginateConfig) (qb : EntityMetaModel) :
    SelectionResult :=
  let selectParams :=
    match c.select, q.select with
    | some cs, some qs =>
      if !c.ignoreSelectInQueryParam then some (cs.filter fun col => qs.contains col)
      else c.select
    | _, _ => c.select
  let selectParams := if !includesAllPrimaryKeyColumns qb q.select then c.select else selectParams
  if !includesAllPrimaryKeyColumns qb selectParams then
    { selectableColumns := selectParams, selectCall := none }
  else
    let cols := selectParams.map fun l => l.map fun currentCol =>
      let columnProperties := getPropertiesByColumnName currentCol
      let isRelation := checkIsRelation qb columnProperties.propertyPath
      fixColumnAlias columnProperties qb.aliasName isRelation false false none
    { selectableColumns := selectParams, selectCall := cols }

/-- `NestJsPaginate.getSearchableColumns` (`src/paginate.ts` lines 288–301). -/
def getSearchableColumns (q : PaginateQuery) (c : PaginateConfig) : List String :=
  match c.searchableColumns with
  | none => []
  | some scols =>
    if scols.isEmpty then []
    else if q.searchBy.isNone || c.ignoreSearchByInQueryParam then scols
    else (q.searchBy.getD []).filter fun col => isEntityKey scols col

structure PaginatedMeta where
  itemsPerPage : Int
  totalItems : Int
  currentPage : Int
  totalPages : Int
  sortBy : List (String × String)
  searchBy : Option (List String)
  search : Option String
  select : Option (List String)
  filter : Option FilterMap

structure PaginatedLinks where
  first : Option String := none
  previous : Option String := none
  current : Option String := none
  next : Option String := none
  last : Option String := none
deriving Repr, DecidableEq

structure Paginated (T : Type) where
  data : List T
  meta : PaginatedMeta
  links : PaginatedLinks

/-- External library surface used by link building: `getQueryUrlComponents`
(regular-expression plus WHATWG `URL` parsing, `src/helper.ts` lines
145–157) and `node:querystring`'s `stringify` with the identity encoder. -/
structure LinkEnv where
  urlComponents : String → String × String
  stringifyQuery : List (String × FilterValue) → String

/-- Fetching inside `NestJsPaginate.getPaginatedResponse`
(`src/paginate.ts` lines 341–353): items, the `totalItems` accumulator (which
keeps its initial `0` in the unpaginated branch) and the boundary calls. -/
def responseRecords (q : PaginateQuery) (c : PaginateConfig) (ex : QueryExecutor T) :
    List T × Int × List ExecCall :=
  if q.limit = some PaginationLimit.COUNTER_ONLY then
    (([] : List T), ex.countResult, [ExecCall.getCount])
  else if isPaginated q c then
    (ex.getManyResult, ex.countResult, [ExecCall.getManyAndCount])
  else
    (ex.getManyResult, (0 : Int), [ExecCall.getMany])

/-- `const page = this.query.page > 0 ? this.query.page : 1`
(`src/paginate.ts` line 344); an absent page is not `> 0`. -/
def jsPageOf (q : PaginateQuery) : Int :=
  match q.page with
  | some p => if p > 0 then p else 1
  | none => 1

/-- `isQuerySelected` (`src/paginate.ts` lines 364–365): the memoised
selection's length differs from the configured selection's length and select
echoing is not suppressed. -/
def isQuerySelectedFlag (q : PaginateQuery) (c : PaginateConfig) (qb : EntityMetaModel) : Bool :=
  decide (optLen (applyColumnsSelection q c qb).selectableColumns ≠ optLen c.select)
    && !c.ignoreSelectInQueryParam

/-- The query-string tail appended to every link
(`src/paginate.ts` lines 355–378). -/
def linkOptions (q : PaginateQuery) (c : PaginateConfig) (qb : EntityMetaModel)
    (env : LinkEnv) : String :=
  let limit := paginationLimit q c
  let sortableColumns := getSortableColumns q c
  let searchableColumns := getSearchableColumns q c
  let selectableColumns := (applyColumnsSelection q c qb).selectableColumns
  let sortByQuery := String.join (sortableColumns.map fun order =>
    "&sortBy=" ++ joinStrings ":" [order.1, order.2])
  let searchQuery := if jsTruthy q.search then "&search=" ++ q.search.getD "" else ""
  let searchByQuery :=
    if (match q.searchBy with | some l => !l.isEmpty | none => false)
        && !c.ignoreSearchByInQueryParam then
      String.join (searchableColumns.map fun column => "&searchBy=" ++ column)
    else ""
  let selectQuery :=
    if isQuerySelectedFlag q c qb then
      "&select=" ++ jsStr (selectableColumns.map (joinStrings ","))
    else ""
  let filterQuery :=
    match q.filter with
    | none => ""
    | some f => "&" ++ env.stringifyQuery (f.map fun kv => ("filter." ++ kv.1, kv.2))
  "&limit=" ++ toString limit ++ sortByQuery ++ searchQuery ++ searchByQuery
    ++ selectQuery ++ filterQuery

/-- Link base-path resolution (`src/paginate.ts` lines 380–391): `none` when
`query.path` is `null`, otherwise relative, origin-rewritten or absolute. -/
def resolveLinkPath (q : PaginateQuery) (c : PaginateConfig) (env : LinkEnv) : Option String :=
  match q.path with
  | none => none
  | some qp =>
    let components := env.urlComponents qp
    if c.relativePath then some components.2
    else match c.origin with
      | some o => if o ≠ "" then some (o ++ components.2) else some (components.1 ++ components.2)
      | none => some (components.1 ++ components.2)

/-- Link assembly (`src/paginate.ts` lines 392 and 410–419): each
`buildLink(p)` is `path + '?page=' + p + options`; with no path no links are
built (`{}` — even `current` is absent). -/
def buildLinks (page totalPages totalItems : Int) (path : Option String)
    (options : String) : PaginatedLinks :=
  match path with
  | none => {}
  | some pathStr =>
    let buildLink := fun (p : Int) => pathStr ++ "?page=" ++ toString p ++ options
    { first := if page = 1 then none else some (buildLink 1)
      previous := if page - 1 < 1 then none else some (buildLink (page - 1))
      current := some (buildLink page)
      next := if page + 1 > totalPages then none else some (buildLink (page + 1))
      last := if page = totalPages ∨ totalItems = 0 then none else some (buildLink totalPages) }

/-- `NestJsPaginate.getPaginatedResponse` (`src/paginate.ts` lines 340–423):
executes per mode, then assembles `meta` and navigation links.  The second
component records the boundary calls issued. -/
def getPaginatedResponse (q : PaginateQuery) (c : PaginateConfig) (qb : EntityMetaModel)
    (env : LinkEnv) (ex : QueryExecutor T) : Paginated T × List ExecCall :=
  let limit := paginationLimit q c
  let page := jsPageOf q
  let isPag := isPaginated q c
  let fetched := responseRecords q c ex
  let items := fetched.1
  let totalItems := fetched.2.1
  let calls := fetched.2.2
  let path := resolveLinkPath q c env
  let totalPages := if isPag then jsCeilDiv totalItems limit else 1
  let links := buildLinks page totalPages totalItems path (linkOptions q c qb env)
  let meta : PaginatedMeta :=
    { itemsPerPage :=
        if limit = PaginationLimit.COUNTER_ONLY then totalItems
        else if isPag then limit else (items.length : Int)
      totalItems :=
        if limit = PaginationLimit.COUNTER_ONLY ∨ isPag then totalItems
        else (items.length : Int)
      currentPage := page
      totalPages := totalPages
      sortBy := getSortableColumns q c
      search := q.search
      searchBy := if jsTruthy q.search then some (getSearchableColumns q c) else none
      select := if isQuerySelectedFlag q c qb then (applyColumnsSelection q c qb).selectableColumns
                else none
      filter := q.filter }
  ({ data := items, meta := meta, links := links }, calls)

def sampleEnv : LinkEnv where
  urlComponents := fun s => ("", s)
  stringifyQuery := fun _ => ""

def sampleExec : QueryExecutor Nat where
  getManyResult := [10, 11, 12]
  countResult := 42

/-- C2: for a query with `limit = COUNTER_ONLY`, the response has no data
rows, `meta.totalItems` is the collaborator's count under the same filters,
only the count boundary call is issued (by `getPaginatedResponse` and by the
`fetchRecords` variant alike), and the result is not a paginated set. -/
theorem C2_counter_only (q : PaginateQuery) (c : PaginateConfig) (qb : EntityMetaModel)
    (env : LinkEnv) (ex : QueryExecutor T)
    (h : q.limit = some PaginationLimit.COUNTER_ONLY) :
    (getPaginatedResponse q c qb env ex).1.data = [] ∧
    (getPaginatedResponse q c qb env ex).1.meta.totalItems = ex.countResult ∧
    (getPaginatedResponse q c qb env ex).2 = [ExecCall.getCount] ∧
    fetchRecords q c ex = (([], ex.countResult), [ExecCall.getCount]) ∧
    isPaginated q c = false := by
  have hp : isPaginated q c = false := by
    unfold isPaginated
    simp [h]
  have hl : paginationLimit q c = PaginationLimit.COUNTER_ONLY := by
    unfold paginationLimit
    simp [h]
  refine ⟨?_, ?_, ?_, ?_, hp⟩ <;>
    simp [getPaginatedResponse, fetchRecords, responseRecords, h, hl]

/-- C2 witness: the theorem instantiated at a concrete counter-only query. -/
theorem C2_counter_only_witness :
    (getPaginatedResponse { limit := some PaginationLimit.COUNTER_ONLY }
        { sortableColumns := ["id"] } sampleMeta sampleEnv sampleExec).1.data = [] ∧
    (getPaginatedResponse { limit := some PaginationLimit.COUNTER_ONLY }
        { sortableColumns := ["id"] } sampleMeta sampleEnv sampleExec).1.meta.totalItems = 42 ∧
    (getPaginatedResponse { limit := some PaginationLimit.COUNTER_ONLY }
        { sortableColumns := ["id"] } sampleMeta sampleEnv sampleExec).2 = [ExecCall.getCount] ∧
    fetchRecords { limit := some PaginationLimit.COUNTER_ONLY } { sortableColumns := ["id"] }
        sampleExec = (([], 42), [ExecCall.getCount]) ∧
    isPaginated { limit := some PaginationLimit.COUNTER_ONLY } { sortableColumns := ["id"] }
      = false :=
  C2_counter_only _ _ _ _ _ rfl

theorem buildLinks_none_iff (page totalPages totalItems : Int) (s options : String) :
    ((buildLinks page totalPages totalItems (some s) options).first = none ↔ page = 1) ∧
    ((buildLinks page totalPages totalItems (some s) options).previous = none ↔ page ≤ 1) ∧
    (buildLinks page totalPages totalItems (some s) options).current.isSome = true ∧
    ((buildLinks page totalPages totalItems (some s) options).next = none ↔
      page + 1 > totalPages) ∧
    ((buildLinks page totalPages totalItems (some s) options).last = none ↔
      (page = totalPages ∨ totalItems = 0)) := by
  unfold buildLinks
  refine ⟨?_, ?_, rfl, ?_, ?_⟩ <;> dsimp only <;> split_ifs <;> simp_all <;> omega

theorem resolveLinkPath_isSome (q : PaginateQuery) (c : PaginateConfig) (env : LinkEnv)
    (p : String) (h : q.path = some p) : ∃ s, resolveLinkPath q c env = some s := by
  unfold resolveLinkPath
  rw [h]
  dsimp only
  split_ifs
  · exact ⟨_, rfl⟩
  · cases c.origin with
    | none => exact ⟨_, rfl⟩
    | some o =>
      dsimp only
      split_ifs <;> exact ⟨_, rfl⟩

/-- C6 counterexample: the claim reads the omission conditions against the
response's `totalItems`; but in unpaginated mode (`limit = NO_PAGINATION`
with `maxLimit = NO_PAGINATION`) the links are built from the internal
`totalItems` accumulator, which stays `0` (`src/paginate.ts` lines 341,
352, 417), while `meta.totalItems` is adjusted to `items.length`
(line 400).  At page 2 of an unpaginated query over three rows,
`page ≠ totalPages` and `meta.totalItems = 3 ≠ 0`, yet `last` is omitted. -/
theorem C6_links_counterexample :
    (getPaginatedResponse { page := some 2, limit := some (-1), path := some "/items" }
        { sortableColumns := ["id"], maxLimit := some (-1) }
        sampleMeta sampleEnv sampleExec).1.links.last = none ∧
    (getPaginatedResponse { page := some 2, limit := some (-1), path := some "/items" }
        { sortableColumns := ["id"], maxLimit := some (-1) }
        sampleMeta sampleEnv sampleExec).1.meta.currentPage ≠
      (getPaginatedResponse { page := some 2, limit := some (-1), path := some "/items" }
        { sortableColumns := ["id"], maxLimit := some (-1) }
        sampleMeta sampleEnv sampleExec).1.meta.totalPages ∧
    (getPaginatedResponse { page := some 2, limit := some (-1), path := some "/items" }
        { sortableColumns := ["id"], maxLimit := some (-1) }
        sampleMeta sampleEnv sampleExec).1.meta.totalItems ≠ 0 := by
  refine ⟨rfl, by decide, by decide⟩

/-- C6 amended: when `query.path` is non-null, `current` is always present,
`first` is omitted exactly when page is 1, `previous` exactly when
`page ≤ 1`, `next` exactly when `page + 1 > totalPages`, and `last` exactly
when the page equals `totalPages` or the fetched `totalItems` accumulator
(which stays `0` in unpaginated mode, rather than `meta.totalItems`) is 0. -/
theorem C6_links_presence_amended (q : PaginateQuery) (c : PaginateConfig)
    (qb : EntityMetaModel) (env : LinkEnv) (ex : QueryExecutor T)
    (p : String) (h : q.path = some p) :
    ((getPaginatedResponse q c qb env ex).1.links.first = none ↔
      (getPaginatedResponse q c qb env ex).1.meta.currentPage = 1) ∧
    ((getPaginatedResponse q c qb env ex).1.links.previous = none ↔
      (getPaginatedResponse q c qb env ex).1.meta.currentPage ≤ 1) ∧
    (getPaginatedResponse q c qb env ex).1.links.current.isSome = true ∧
    ((getPaginatedResponse q c qb env ex).1.links.next = none ↔
      (getPaginatedResponse q c qb env ex).1.meta.currentPage + 1 >
        (getPaginatedResponse q c qb env ex).1.meta.totalPages) ∧
    ((getPaginatedResponse q c qb env ex).1.links.last = none ↔
      ((getPaginatedResponse q c qb env ex).1.meta.currentPage =
          (getPaginatedResponse q c qb env ex).1.meta.totalPages ∨
        (responseRecords q c ex).2.1 = 0)) := by
  obtain ⟨s, hs⟩ := resolveLinkPath_isSome q c env p h
  have hl : (getPaginatedResponse q c qb env ex).1.links =
      buildLinks (jsPageOf q)
        (if isPaginated q c then jsCeilDiv (responseRecords q c ex).2.1 (paginationLimit q c)
         else 1)
        (responseRecords q c ex).2.1 (resolveLinkPath q c env) (linkOptions q c qb env) := rfl
  have hcp : (getPaginatedResponse q c qb env ex).1.meta.currentPage = jsPageOf q := rfl
  have htp : (getPaginatedResponse q c qb env ex).1.meta.totalPages =
      (if isPaginated q c then jsCeilDiv (responseRecords q c ex).2.1 (paginationLimit q c)
       else 1) := rfl
  rw [hl, hcp, htp, hs]
  exact buildLinks_none_iff _ _ _ _ _

/-- C6 witness: the amended theorem instantiated at a concrete paginated
query with a path. -/
theorem C6_links_presence_amended_witness :
    ((getPaginatedResponse { page := some 2, limit := some 10, path := some "/items" }
        { sortableColumns := ["id"] } sampleMeta sampleEnv sampleExec).1.links.first = none ↔
      (getPaginatedResponse { page := some 2, limit := some 10, path := some "/items" }
        { sortableColumns := ["id"] } sampleMeta sampleEnv sampleExec).1.meta.currentPage = 1) ∧
    ((getPaginatedResponse { page := some 2, limit := some 10, path := some "/items" }
        { sortableColumns := ["id"] } sampleMeta sampleEnv sampleExec).1.links.previous = none ↔
      (getPaginatedResponse { page := some 2, limit := some 10, path := some "/items" }
        { sortableColumns := ["id"] } sampleMeta sampleEnv sampleExec).1.meta.currentPage ≤ 1) ∧
    (getPaginatedResponse { page := some 2, limit := some 10, path := some "/items" }
        { sortableColumns := ["id"] } sampleMeta sampleEnv sampleExec).1.links.current.isSome
      = true ∧
    ((getPaginatedResponse { page := some 2, limit := some 10, path := some "/items" }
        { sortableColumns := ["id"] } sampleMeta sampleEnv sampleExec).1.links.next = none ↔
      (getPaginatedResponse { page := some 2, limit := some 10, path := some "/items" }
        { sortableColumns := ["id"] } sampleMeta sampleEnv sampleExec).1.meta.currentPage + 1 >
        (getPaginatedResponse { page := some 2, limit := some 10, path := some "/items" }
          { sortableColumns := ["id"] } sampleMeta sampleEnv sampleExec).1.meta.totalPages) ∧
    ((getPaginatedResponse { page := some 2, limit := some 10, path := some "/items" }
        { sortableColumns := ["id"] } sampleMeta sampleEnv sampleExec).1.links.last = none ↔
      ((getPaginatedResponse { page := some 2, limit := some 10, path := some "/items" }
          { sortableColumns := ["id"] } sampleMeta sampleEnv sampleExec).1.meta.currentPage =
        (getPaginatedResponse { page := some 2, limit := some 10, path := some "/items" }
          { sortableColumns := ["id"] } sampleMeta sampleEnv sampleExec).1.meta.totalPages ∨
        (responseRecords { page := some 2, limit := some 10, path := some "/items" }
          { sortableColumns := ["id"] } sampleExec).2.1 = 0)) :=
  C6_links_presence_amended _ _ _ _ _ "/items" rfl

theorem selectableColumns_isSome_iff (q : PaginateQuery) (c : PaginateConfig)
    (qb : EntityMetaModel) :
    (applyColumnsSelection q c qb).selectableColumns.isSome = c.select.isSome := by
  unfold applyColumnsSelection
  cases hc : c.select <;> cases hq : q.select <;> dsimp only <;> split_ifs <;> simp

/-- C8 counterexample: with `search = "x"` and no requested `searchBy`, the
resolved searchable columns equal the config default, i.e. the request does
not diverge from the config, yet `meta.searchBy` is present
(`src/paginate.ts` line 405 keys it on `query.search`, not on divergence). -/
theorem C8_meta_searchBy_counterexample :
    (getPaginatedResponse { search := some "x" }
        { sortableColumns := ["id"], searchableColumns := some ["name"] }
        sampleMeta sampleEnv sampleExec).1.meta.searchBy = some ["name"] ∧
    getSearchableColumns { search := some "x" }
        { sortableColumns := ["id"], searchableColumns := some ["name"] } =
      ({ sortableColumns := ["id"], searchableColumns := some ["name"] } :
          PaginateConfig).searchableColumns.getD [] :=
  ⟨rfl, rfl⟩

/-- C8 amended: `meta.filter` echoes the input filter map verbatim (including
absence); `meta.select` is present exactly when the memoised selection's
length differs from `config.select`'s length and `ignoreSelectInQueryParam`
is off; but `meta.searchBy` is present exactly when `query.search` is a
non-empty string (regardless of divergence from the config defaults), and
then holds the resolved searchable columns. -/
theorem C8_meta_echo_amended (q : PaginateQuery) (c : PaginateConfig) (qb : EntityMetaModel)
    (env : LinkEnv) (ex : QueryExecutor T) :
    (getPaginatedResponse q c qb env ex).1.meta.filter = q.filter ∧
    (getPaginatedResponse q c qb env ex).1.meta.searchBy =
      (if jsTruthy q.search then some (getSearchableColumns q c) else none) ∧
    ((getPaginatedResponse q c qb env ex).1.meta.select.isSome ↔
      (optLen (applyColumnsSelection q c qb).selectableColumns ≠ optLen c.select ∧
        c.ignoreSelectInQueryParam = false)) := by
  refine ⟨rfl, rfl, ?_⟩
  have hsel : (getPaginatedResponse q c qb env ex).1.meta.select =
      (if isQuerySelectedFlag q c qb then (applyColumnsSelection q c qb).selectableColumns
       else none) := rfl
  rw [hsel]
  unfold isQuerySelectedFlag
  split_ifs with hq
  · simp only [Bool.and_eq_true, Bool.not_eq_true', decide_eq_true_eq] at hq
    obtain ⟨hne, hig⟩ := hq
    refine ⟨fun _ => ⟨hne, hig⟩, fun _ => ?_⟩
    cases hcs : c.select with
    | none =>
      exfalso
      apply hne
      have hiff := selectableColumns_isSome_iff q c qb
      rw [hcs] at hiff
      simp only [Option.isSome_none] at hiff
      have hnone : (applyColumnsSelection q c qb).selectableColumns = none :=
        Option.not_isSome_iff_eq_none.mp (by simp [hiff])
      rw [hnone, hcs]
    | some l =>
      have hiff := selectableColumns_isSome_iff q c qb
      rw [hcs] at hiff
      simpa using hiff
  · simp only [Bool.and_eq_true, Bool.not_eq_true', decide_eq_true_eq, not_and] at hq
    simp only [Option.isSome_none, Bool.false_eq_true, false_iff, not_and]
    intro hne
    exact fun hig => (hq hne) hig

/-- C10: a narrowing `select` is issued on the builder only when the
effective select-parameter list contains every primary-key column property
path; otherwise `applyColumnsSelection` returns without touching the
builder's projection. -/
theorem C10_pk_guard_frames_selection (q : PaginateQuery) (c : PaginateConfig)
    (qb : EntityMetaModel) :
    (includesAllPrimaryKeyColumns qb (applyColumnsSelection q c qb).selectableColumns = false →
      (applyColumnsSelection q c qb).selectCall = none) ∧
    (∀ cols, (applyColumnsSelection q c qb).selectCall = some cols →
      includesAllPrimaryKeyColumns qb (applyColumnsSelection q c qb).selectableColumns = true) := by
  unfold applyColumnsSelection
  dsimp only
  split_ifs with hg <;> simp_all

/-- C10 witness: a request whose selection misses the primary key `id` issues
no `select`; one that includes it issues a narrowing `select`. -/
theorem C10_pk_guard_frames_selection_witness :
    (applyColumnsSelection { select := some ["name"] } { select := some ["name"] }
        sampleMeta).selectCall = none ∧
    includesAllPrimaryKeyColumns sampleMeta
      (applyColumnsSelection { select := some ["id"] } { select := some ["id", "name"] }
        sampleMeta).selectableColumns = true :=
  ⟨(C10_pk_guard_frames_selection { select := some ["name"] } { select := some ["name"] }
      sampleMeta).1 rfl,
   (C10_pk_guard_frames_selection { select := some ["id"] } { select := some ["id", "name"] }
      sampleMeta).2 ["id"] rfl⟩

/-! ## Predicate Flattener — `src/helper.ts` lines 187–266

A `FindOptionsWhere` object is a list of entries, each a leaf (a primitive or
`FindOperator` value, opaque type `V`) or a nested plain object.
`WhereBuilder` extends the metadata model with the predicate compiler
(`createWhereConditionExpression ∘ getWherePredicateCondition`) and the
builder's join state (`expressionMap.joinAttributes` alias names, plus the
recorded `leftJoin` calls). -/

inductive WhereEntry (V : Type) where
  | leaf (key : String) (value : V)
  | node (key : String) (entries : List (WhereEntry V))

structure WhereBuilder (V : Type) where
  meta : EntityMetaModel
  compileWhere : String → V → String
  joinAttributes : List String
  joins : List (String × String)

/-- The accumulated key path: `parentKey ? `parentKey + separator + key` : key`
(`src/helper.ts` line 203). -/
def jsJoinKey (parentKey separator key : String) : String :=
  if parentKey ≠ "" then parentKey ++ separator ++ key else key

/-- The leaf translation of `flattenWhereAndTransform`
(`src/helper.ts` lines 208–222): resolve the dotted key, classify, fix the
alias, and compile the comparison through the builder's predicate compiler.
Only the immutable metadata and compiler of the builder are read. -/
def leafWhereClause (meta : EntityMetaModel) (compile : String → V → String)
    (joinedKey : String) (value : V) : String :=
  let property := getPropertiesByColumnName joinedKey
  let vm := extractVirtualProperty meta property
  let isRelation := checkIsRelation meta property.propertyPath
  let isEmbedded := checkIsEmbedded meta property.propertyPath
  let columnAlias := fixColumnAlias property meta.aliasName isRelation vm.isVirtualProperty
    isEmbedded vm.query
  compile columnAlias value

/-- The body of the `tablesToJoin.forEach` loop of `flattenWhereAndTransform`
(`src/helper.ts` lines 240–260): skip a table whose join alias is already
present, otherwise record the `leftJoin` and its alias. -/
def insertJoinStep (qb : WhereBuilder V) (table : String) : WhereBuilder V :=
  let pathSplit := splitChar '.' table
  let fullPath :=
    if pathSplit.length = 1 then ""
    else "_" ++ joinStrings "_" (pathSplit.dropLast.map fun p => p ++ "_rel")
  let tableName := pathSplit.getLastD ""
  let tableAliasWithProperty := qb.meta.aliasName ++ fullPath ++ "." ++ tableName
  let joinTableAlias := qb.meta.aliasName ++ fullPath ++ "_" ++ tableName ++ "_rel"
  if qb.joinAttributes.contains joinTableAlias then qb
  else { qb with joinAttributes := qb.joinAttributes ++ [joinTableAlias],
                 joins := qb.joins ++ [(tableAliasWithProperty, joinTableAlias)] }

/-- The join insertion of `flattenWhereAndTransform`
(`src/helper.ts` lines 224–260): for each prefix table path of the leaf's
column, run `insertJoinStep`. -/
def insertLeafJoins (qb : WhereBuilder V) (joinedKey : String) : WhereBuilder V :=
  let property := getPropertiesByColumnName joinedKey
  let allTablesInPath := (splitChar '.' property.column).dropLast
  let tablesToJoin := allTablesInPath.mapIdx fun idx table =>
    if idx = 0 then table else joinStrings "." (allTablesInPath.take idx ++ [table])
  tablesToJoin.foldl insertJoinStep qb

/-- `flattenWhereAndTransform` (`src/helper.ts` lines 195–266): flatten the
nested predicate object into leaf clauses, accumulating the dotted key path
and inserting the missing joins along the way. -/
def flattenWhereAndTransform (qb : WhereBuilder V) (obj : List (WhereEntry V))
    (separator parentKey : String) : List String × WhereBuilder V :=
  match obj with
  | [] => ([], qb)
  | .leaf key value :: rest =>
    (leafWhereClause qb.meta qb.compileWhere (jsJoinKey parentKey separator key) value ::
        (flattenWhereAndTransform (insertLeafJoins qb (jsJoinKey parentKey separator key))
          rest separator parentKey).1,
      (flattenWhereAndTransform (insertLeafJoins qb (jsJoinKey parentKey separator key))
        rest separator parentKey).2)
  | .node key entries :: rest =>
    ((flattenWhereAndTransform qb entries separator (jsJoinKey parentKey separator key)).1 ++
        (flattenWhereAndTransform
          (flattenWhereAndTransform qb entries separator (jsJoinKey parentKey separator key)).2
          rest separator parentKey).1,
      (flattenWhereAndTransform
        (flattenWhereAndTransform qb entries separator (jsJoinKey parentKey separator key)).2
        rest separator parentKey).2)
termination_by sizeOf obj
decreasing_by all_goals simp_wf <;> omega

/-- `generateWhereStatement` (`src/helper.ts` lines 187–193): array input is
taken as-is, a single object is wrapped; each item is flattened (against the
same threaded builder) and joined with `' AND '`, the items with `' OR '`. -/
def generateWhereStatement (qb : WhereBuilder V)
    (obj : Sum (List (WhereEntry V)) (List (List (WhereEntry V)))) : String :=
  let toTransform := match obj with | .inl o => [o] | .inr os => os
  let strs := (toTransform.foldl
    (fun acc item =>
      let r := flattenWhereAndTransform acc.2 item "." ""
      (acc.1 ++ [joinStrings " AND " r.1], r.2))
    (([] : List String), qb)).1
  joinStrings " OR " strs

/-- The leaves of a nested predicate object with their accumulated dotted key
paths, in document order — the reference specification the flattener is
checked against. -/
def whereLeaves (separator parentKey : String) (obj : List (WhereEntry V)) :
    List (String × V) :=
  match obj with
  | [] => []
  | .leaf key value :: rest =>
    (jsJoinKey parentKey separator key, value) :: whereLeaves separator parentKey rest
  | .node key entries :: rest =>
    whereLeaves separator (jsJoinKey parentKey separator key) entries
      ++ whereLeaves separator parentKey rest
termination_by sizeOf obj
decreasing_by all_goals simp_wf <;> omega


theorem insertJoinStep_meta (qb : WhereBuilder V) (table : String) :
    (insertJoinStep qb table).meta = qb.meta ∧
    (insertJoinStep qb table).compileWhere = qb.compileWhere := by
  unfold insertJoinStep
  dsimp only
  split_ifs <;> exact ⟨rfl, rfl⟩

theorem foldl_insertJoinStep_meta (tables : List String) (qb : WhereBuilder V) :
    (tables.foldl insertJoinStep qb).meta = qb.meta ∧
    (tables.foldl insertJoinStep qb).compileWhere = qb.compileWhere := by
  induction tables generalizing qb with
  | nil => exact ⟨rfl, rfl⟩
  | cons t rest ih =>
    simp only [List.foldl_cons]
    constructor
    · rw [(ih (insertJoinStep qb t)).1, (insertJoinStep_meta qb t).1]
    · rw [(ih (insertJoinStep qb t)).2, (insertJoinStep_meta qb t).2]

theorem insertLeafJoins_meta (qb : WhereBuilder V) (joinedKey : String) :
    (insertLeafJoins qb joinedKey).meta = qb.meta ∧
    (insertLeafJoins qb joinedKey).compileWhere = qb.compileWhere := by
  unfold insertLeafJoins
  exact foldl_insertJoinStep_meta _ _

theorem flattenWhereAndTransform_spec (qb : WhereBuilder V) (obj : List (WhereEntry V))
    (separator parentKey : String) :
    (flattenWhereAndTransform qb obj separator parentKey).1 =
      (whereLeaves separator parentKey obj).map
        (fun kv => leafWhereClause qb.meta qb.compileWhere kv.1 kv.2) ∧
    (flattenWhereAndTransform qb obj separator parentKey).2.meta = qb.meta ∧
    (flattenWhereAndTransform qb obj separator parentKey).2.compileWhere = qb.compileWhere := by
  induction qb, obj, separator, parentKey using flattenWhereAndTransform.induct
  all_goals simp_all [flattenWhereAndTransform, whereLeaves, insertLeafJoins_meta]

theorem joinStrings_singleton (sep s : String) : joinStrings sep [s] = s := by
  cases s
  simp [joinStrings, List.intercalate]

theorem whereFold_spec (objs : List (List (WhereEntry V))) (qb : WhereBuilder V)
    (acc : List String) :
    ((objs.foldl (fun acc item =>
        let r := flattenWhereAndTransform acc.2 item "." ""
        (acc.1 ++ [joinStrings " AND " r.1], r.2)) (acc, qb)).1 : List String) =
      acc ++ objs.map (fun item =>
        joinStrings " AND " ((whereLeaves "." "" item).map
          fun kv => leafWhereClause qb.meta qb.compileWhere kv.1 kv.2)) := by
  induction objs generalizing qb acc with
  | nil => simp
  | cons o os ih =>
    simp only [List.foldl_cons, List.map_cons]
    have hspec := flattenWhereAndTransform_spec qb o "." ""
    rw [ih ((flattenWhereAndTransform qb o "." "").2) _, hspec.2.1, hspec.2.2, hspec.1]
    simp

/-- C5: for a static base predicate, array input yields the per-item
flattened leaf clauses (each leaf compiled at its accumulated dotted key
path, in document order) joined with `' AND '` per item and the items joined
with `' OR '`; single-object input yields just that object's flattened
AND-group. -/
theorem C5_where_statement_composition (qb : WhereBuilder V)
    (objs : List (List (WhereEntry V))) (obj : List (WhereEntry V)) :
    generateWhereStatement qb (.inr objs) =
      joinStrings " OR " (objs.map fun item =>
        joinStrings " AND " ((whereLeaves "." "" item).map
          fun kv => leafWhereClause qb.meta qb.compileWhere kv.1 kv.2)) ∧
    generateWhereStatement qb (.inl obj) =
      joinStrings " AND " ((whereLeaves "." "" obj).map
        fun kv => leafWhereClause qb.meta qb.compileWhere kv.1 kv.2) := by
  constructor
  · unfold generateWhereStatement
    dsimp only
    rw [whereFold_spec objs qb []]
    simp
  · unfold generateWhereStatement
    dsimp only
    rw [whereFold_spec [obj] qb []]
    simp only [List.map_cons, List.map_nil, List.nil_append]
    rw [joinStrings_singleton]

/-! ## Alias determinism and collision analysis — spec §8, `src/helper.ts`

`resolveRelationAlias` is the resolution pipeline for a relation-classified
column: parse the dotted path, then compute the relation alias (virtual and
embedded classification off, as for a plain relation hop). -/

def resolveRelationAlias (aliasName column : String) : String :=
  fixColumnAlias (getPropertiesByColumnName column) aliasName true false false none

/-- The character suffix `rel` used by the alias scheme. -/
def relChars : List Char := ['r', 'e', 'l']

/-- The alternating `segment, "rel"` encoding whose `'_'`-intercalation is
the pre-dot part of a relation alias. -/
def encodeSegs (segs : List (List Char)) : List (List Char) :=
  segs.flatMap fun s => [s, relChars]

theorem removeFirst_of_not_mem {c : Char} : ∀ {l : List Char}, c ∉ l → removeFirst c l = l
  | [], _ => rfl
  | x :: xs, h => by
    unfold removeFirst
    rw [if_neg (by rintro rfl; exact h (List.mem_cons_self x xs)),
      removeFirst_of_not_mem (fun hc => h (List.mem_cons_of_mem x hc))]

theorem splitOn_sep_not_mem (x : Char) (xs : List Char) : ∀ l ∈ xs.splitOn x, x ∉ l := by
  induction xs with
  | nil =>
    intro l hl
    rw [List.splitOn_nil] at hl
    simp only [List.mem_singleton] at hl
    simp [hl]
  | cons a xs ih =>
    intro l hl
    rw [show (a :: xs).splitOn x = List.splitOnP (· == x) (a :: xs) from rfl,
      List.splitOnP_cons] at hl
    by_cases hax : a = x
    · rw [if_pos (by simp [hax])] at hl
      rcases List.mem_cons.mp hl with h | h
      · simp [h]
      · exact ih l h
    · rw [if_neg (by simp [hax])] at hl
      cases hsp : List.splitOnP (· == x) xs with
      | nil => exact absurd hsp (List.splitOnP_ne_nil _ _)
      | cons hd tl =>
        rw [hsp, List.modifyHead_cons] at hl
        rcases List.mem_cons.mp hl with h | h
        · subst h
          intro hmem
          rcases List.mem_cons.mp hmem with h | h
          · exact hax h.symm
          · refine ih hd ?_ h
            show hd ∈ List.splitOnP (· == x) xs
            rw [hsp]
            exact List.mem_cons_self hd tl
        · refine ih l ?_
          show l ∈ List.splitOnP (· == x) xs
          rw [hsp]
          exact List.mem_cons_of_mem hd h

theorem intercalate_cons2 (sep a b : List Char) (l : List (List Char)) :
    List.intercalate sep (a :: b :: l) = a ++ sep ++ List.intercalate sep (b :: l) := by
  simp [List.intercalate]

theorem intercalate_singleton (sep a : List Char) : List.intercalate sep [a] = a := by
  simp [List.intercalate]

theorem not_mem_intercalate {x : Char} {sep : List Char} (hx : x ∉ sep) :
    ∀ {ls : List (List Char)}, (∀ l ∈ ls, x ∉ l) → x ∉ List.intercalate sep ls
  | [], _ => by simp [List.intercalate]
  | [a], h => by
    rw [intercalate_singleton]
    exact h a (List.mem_singleton_self a)
  | a :: b :: t, h => by
    rw [intercalate_cons2]
    intro hmem
    rcases List.mem_append.mp hmem with h1 | h1
    · rcases List.mem_append.mp h1 with h2 | h2
      · exact h a (by simp) h2
      · exact hx h2
    · exact not_mem_intercalate hx (fun l hl => h l (List.mem_cons_of_mem a hl)) h1

theorem append_sep_inj {x : Char} :
    ∀ {a1 a2 r1 r2 : List Char}, a1 ++ x :: r1 = a2 ++ x :: r2 → x ∉ a1 → x ∉ a2 →
      a1 = a2 ∧ r1 = r2
  | [], [], r1, r2, h, _, _ => by simpa using h
  | [], b :: u, r1, r2, h, _, h2 => by
    simp only [List.nil_append, List.cons_append, List.cons.injEq] at h
    exact absurd (h.1 ▸ List.mem_cons_self b _ : x ∈ b :: u) h2
  | a :: t, [], r1, r2, h, h1, _ => by
    simp only [List.nil_append, List.cons_append, List.cons.injEq] at h
    exact absurd (h.1 ▸ List.mem_cons_self a _ : x ∈ a :: t) (h.1 ▸ h1)
  | a :: t, b :: u, r1, r2, h, h1, h2 => by
    simp only [List.cons_append, List.cons.injEq] at h
    obtain ⟨rfl, htail⟩ := h
    obtain ⟨he, hr⟩ := append_sep_inj htail (fun hc => h1 (List.mem_cons_of_mem _ hc))
      (fun hc => h2 (List.mem_cons_of_mem _ hc))
    exact ⟨by rw [he], hr⟩

theorem encodeSegs_inj : ∀ {l1 l2 : List (List Char)}, encodeSegs l1 = encodeSegs l2 → l1 = l2
  | [], [], _ => rfl
  | [], b :: u, h => by simp [encodeSegs] at h
  | a :: t, [], h => by simp [encodeSegs] at h
  | a :: t, b :: u, h => by
    simp only [encodeSegs, List.flatMap_cons, List.cons_append, List.nil_append,
      List.cons.injEq] at h
    obtain ⟨rfl, -, htail⟩ := h
    have ht : t = u := encodeSegs_inj htail
    rw [ht]

theorem intercalate_encode (segs : List (List Char)) (h : segs ≠ []) :
    List.intercalate ['_'] (encodeSegs segs) =
      List.intercalate ['_'] (segs.map (fun s => s ++ '_' :: relChars)) := by
  induction segs with
  | nil => exact absurd rfl h
  | cons a t ih =>
    cases t with
    | nil =>
      simp only [encodeSegs, List.flatMap_cons, List.flatMap_nil, List.append_nil,
        List.map_cons, List.map_nil]
      rw [show ([a, relChars] : List (List Char)) = a :: relChars :: [] from rfl,
        intercalate_cons2, intercalate_singleton, intercalate_singleton]
      simp
    | cons b u =>
      have hih := ih (by simp)
      have h1 : encodeSegs (a :: b :: u) = a :: relChars :: encodeSegs (b :: u) := by
        simp [encodeSegs]
      have hz : encodeSegs (b :: u) = b :: relChars :: encodeSegs u := by
        simp [encodeSegs]
      rw [h1, hz, intercalate_cons2, intercalate_cons2, ← hz, hih]
      simp only [List.map_cons]
      rw [intercalate_cons2]
      simp [List.append_assoc]

theorem getProps_splitOn_cons (c : String) (d0 : List Char) (rest : List (List Char))
    (hs : c.data.splitOn '.' = d0 :: rest) (hne : rest ≠ [])
    (hnp : ∀ l ∈ c.data.splitOn '.', ('(' : Char) ∉ l ∧ (')' : Char) ∉ l) :
    getPropertiesByColumnName c =
      { propertyPath := some ⟨d0⟩,
        propertyName := ⟨List.intercalate ['.'] rest⟩,
        isNested := decide (1 < rest.length),
        column := ⟨d0⟩ ++ "." ++ ⟨List.intercalate ['.'] rest⟩ } := by
  have hmemrest : ∀ l ∈ rest, ('(' : Char) ∉ l ∧ (')' : Char) ∉ l := by
    intro l hl
    exact hnp l (by rw [hs]; exact List.mem_cons_of_mem d0 hl)
  have hpar : ('(' : Char) ∉ List.intercalate ['.'] rest :=
    not_mem_intercalate (by decide) (fun l hl => (hmemrest l hl).1)
  have hpar2 : (')' : Char) ∉ List.intercalate ['.'] rest :=
    not_mem_intercalate (by decide) (fun l hl => (hmemrest l hl).2)
  unfold getPropertiesByColumnName splitChar
  rw [hs]
  have hlen : ¬ (List.map String.mk (d0 :: rest)).length ≤ 1 := by
    cases rest with
    | nil => exact absurd rfl hne
    | cons a t => simp
  rw [if_neg hlen]
  have hdata : List.map String.data (List.map String.mk rest) = rest := by
    simp [List.map_map]
    exact List.map_id rest
  have hjoin : joinStrings "." ((List.map String.mk (d0 :: rest)).drop 1) =
      ⟨List.intercalate ['.'] rest⟩ := by
    unfold joinStrings
    simp only [List.map_cons, List.drop_succ_cons, List.drop_zero, hdata]
  dsimp only
  rw [hjoin]
  have hrf : removeFirstChar ')' (removeFirstChar '(' ⟨List.intercalate ['.'] rest⟩) =
      (⟨List.intercalate ['.'] rest⟩ : String) := by
    unfold removeFirstChar
    simp only
    rw [removeFirst_of_not_mem hpar, removeFirst_of_not_mem hpar2]
  have hsw : startsWithChar '(' ⟨List.intercalate ['.'] rest⟩ = false := by
    unfold startsWithChar
    simp only
    rw [beq_eq_false_iff_ne]
    intro hh
    apply hpar
    apply List.mem_of_mem_head?
    rw [hh]
    rfl
  rw [hrf, hsw]
  simp

theorem resolveRelationAlias_data (aliasName c : String) (d0 : List Char)
    (rest : List (List Char)) (hs : c.data.splitOn '.' = d0 :: rest) (hne : rest ≠ [])
    (hnp : ∀ l ∈ c.data.splitOn '.', ('(' : Char) ∉ l ∧ (')' : Char) ∉ l) :
    (resolveRelationAlias aliasName c).data =
      aliasName.data ++ '_' ::
        (List.intercalate ['_'] (encodeSegs (d0 :: rest.dropLast)) ++
          '.' :: rest.getLast hne) := by
  have hdot : ∀ l ∈ rest, ('.' : Char) ∉ l := fun l hl =>
    splitOn_sep_not_mem '.' c.data l (by rw [hs]; exact List.mem_cons_of_mem d0 hl)
  unfold resolveRelationAlias
  rw [getProps_splitOn_cons c d0 rest hs hne hnp]
  unfold fixColumnAlias
  cases rest with
  | nil => exact absurd rfl hne
  | cons d1 rest' =>
    cases rest' with
    | nil =>
      simp only [List.length_cons, List.length_nil]
      norm_num
      rw [intercalate_singleton]
      simp [jsStr, string_data_append, encodeSegs, relChars]
      rw [show ([d0, ['r','e','l']] : List (List Char)) = d0 :: ['r','e','l'] :: [] from rfl,
        intercalate_cons2, intercalate_singleton]
      simp [List.append_assoc]
    | cons d2 t =>
      simp only [List.length_cons]
      norm_num
      have hcont : containsChar '.' ⟨List.intercalate ['.'] (d1 :: d2 :: t)⟩ = true := by
        unfold containsChar
        simp only
        rw [intercalate_cons2]
        simp
      rw [if_pos hcont]
      have hsplitPN : splitChar '.' ⟨List.intercalate ['.'] (d1 :: d2 :: t)⟩ =
          (d1 :: d2 :: t).map String.mk := by
        unfold splitChar
        simp only
        rw [List.splitOn_intercalate (d1 :: d2 :: t) '.' hdot (by simp)]
      rw [hsplitPN]
      have hreldata : ("_rel" : String).data = '_' :: relChars := rfl
      have hmapdrop : (List.map (fun v => v ++ "_rel") (List.map String.mk (d1 :: d2 :: t))).dropLast =
          ((d1 :: d2 :: t).dropLast).map (fun s => String.mk s ++ "_rel") := by
        rw [List.map_map, List.map_dropLast]
        rfl
      rw [hmapdrop]
      have hjn : joinStrings "_" (((d1 :: d2 :: t).dropLast).map (fun s => String.mk s ++ "_rel")) =
          ⟨List.intercalate ['_'] (((d1 :: d2 :: t).dropLast).map (fun s => s ++ '_' :: relChars))⟩ := by
        unfold joinStrings
        congr 1
        rw [List.map_map]
        show ['_'].intercalate _ = _
        congr 1
      rw [hjn]
      have hlast : (List.map String.mk (d1 :: d2 :: t)).getLast?.getD "" =
          String.mk ((d1 :: d2 :: t).getLast (by simp)) := by
        rw [List.getLast?_eq_getLast _ (by simp), Option.getD_some, List.getLast_map]
      rw [hlast]
      have hdl : (d1 :: d2 :: t).dropLast = d1 :: (d2 :: t).dropLast := rfl
      rw [hdl]
      rw [intercalate_encode _ (by simp)]
      rw [show ((d0 :: d1 :: (d2 :: t).dropLast).map (fun s => s ++ '_' :: relChars)) =
        (d0 ++ '_' :: relChars) ::
          (d1 :: (d2 :: t).dropLast).map (fun s => s ++ '_' :: relChars) from rfl]
      rw [show ((d1 :: (d2 :: t).dropLast).map (fun s => s ++ '_' :: relChars)) =
        (d1 ++ '_' :: relChars) ::
          ((d2 :: t).dropLast).map (fun s => s ++ '_' :: relChars) from rfl]
      rw [intercalate_cons2]
      have hd1 : ("_" : String).data = ['_'] := rfl
      have hd2 : ("_rel_" : String).data = '_' :: relChars ++ ['_'] := rfl
      have hd3 : ("." : String).data = ['.'] := rfl
      simp [jsStr, string_data_append, hd1, hd2, hd3, relChars, List.append_assoc]

theorem mem_encodeSegs {l : List Char} {segs : List (List Char)}
    (h : l ∈ encodeSegs segs) : l ∈ segs ∨ l = relChars := by
  unfold encodeSegs at h
  rw [List.mem_flatMap] at h
  obtain ⟨s, hs, hl⟩ := h
  rcases List.mem_cons.mp hl with h | h
  · exact Or.inl (h ▸ hs)
  · exact Or.inr (by simpa using h)

theorem string_ext {s t : String} (h : s.data = t.data) : s = t := by
  cases s
  cases t
  exact congrArg String.mk h

theorem C9_injectivity_core (aliasName c1 c2 : String)
    (h1 : 2 ≤ (c1.data.splitOn '.').length)
    (h2 : 2 ≤ (c2.data.splitOn '.').length)
    (hseg1 : ∀ l ∈ c1.data.splitOn '.',
      ('_' : Char) ∉ l ∧ ('(' : Char) ∉ l ∧ (')' : Char) ∉ l)
    (hseg2 : ∀ l ∈ c2.data.splitOn '.',
      ('_' : Char) ∉ l ∧ ('(' : Char) ∉ l ∧ (')' : Char) ∉ l)
    (heq : resolveRelationAlias aliasName c1 = resolveRelationAlias aliasName c2) :
    c1 = c2 := by
  cases hsp1 : c1.data.splitOn '.' with
  | nil => rw [hsp1] at h1; simp at h1
  | cons d0 rest =>
  cases hsp2 : c2.data.splitOn '.' with
  | nil => rw [hsp2] at h2; simp at h2
  | cons e0 rest2 =>
  have hne1 : rest ≠ [] := by
    rw [hsp1] at h1
    cases rest with
    | nil => simp at h1
    | cons a t => simp
  have hne2 : rest2 ≠ [] := by
    rw [hsp2] at h2
    cases rest2 with
    | nil => simp at h2
    | cons a t => simp
  rw [hsp1] at hseg1
  rw [hsp2] at hseg2
  have hdata1 := resolveRelationAlias_data aliasName c1 d0 rest hsp1 hne1
    (by rw [hsp1]; exact fun l hl => ⟨(hseg1 l hl).2.1, (hseg1 l hl).2.2⟩)
  have hdata2 := resolveRelationAlias_data aliasName c2 e0 rest2 hsp2 hne2
    (by rw [hsp2]; exact fun l hl => ⟨(hseg2 l hl).2.1, (hseg2 l hl).2.2⟩)
  have heqd := congrArg String.data heq
  rw [hdata1, hdata2] at heqd
  have hz := List.append_cancel_left heqd
  injection hz with _ hz2
  -- dot-freeness of the pre-dot parts
  have hdotfree : ∀ (dd : List Char) (rr : List (List Char)),
      (∀ l ∈ dd :: rr, ('.' : Char) ∉ l) →
      ('.' : Char) ∉ List.intercalate ['_'] (encodeSegs (dd :: rr.dropLast)) := by
    intro dd rr hmem
    refine not_mem_intercalate (by decide) ?_
    intro l hl
    rcases mem_encodeSegs hl with h | h
    · rcases List.mem_cons.mp h with h | h
      · exact h ▸ hmem dd (List.mem_cons_self dd rr)
      · exact hmem l (List.mem_cons_of_mem dd (List.dropLast_subset rr h))
    · rw [h]
      decide
  have hsep1 : ∀ l ∈ c1.data.splitOn '.', ('.' : Char) ∉ l :=
    splitOn_sep_not_mem '.' c1.data
  have hsep2 : ∀ l ∈ c2.data.splitOn '.', ('.' : Char) ∉ l :=
    splitOn_sep_not_mem '.' c2.data
  rw [hsp1] at hsep1
  rw [hsp2] at hsep2
  obtain ⟨hX, hy⟩ := append_sep_inj hz2 (hdotfree d0 rest hsep1) (hdotfree e0 rest2 hsep2)
  -- recover the encoded segment lists from the '_'-intercalation
  have hu1 : ∀ l ∈ encodeSegs (d0 :: rest.dropLast), ('_' : Char) ∉ l := by
    intro l hl
    rcases mem_encodeSegs hl with h | h
    · rcases List.mem_cons.mp h with h | h
      · exact h ▸ (hseg1 d0 (List.mem_cons_self d0 rest)).1
      · exact (hseg1 l (List.mem_cons_of_mem d0 (List.dropLast_subset rest h))).1
    · rw [h]
      decide
  have hu2 : ∀ l ∈ encodeSegs (e0 :: rest2.dropLast), ('_' : Char) ∉ l := by
    intro l hl
    rcases mem_encodeSegs hl with h | h
    · rcases List.mem_cons.mp h with h | h
      · exact h ▸ (hseg2 e0 (List.mem_cons_self e0 rest2)).1
      · exact (hseg2 l (List.mem_cons_of_mem e0 (List.dropLast_subset rest2 h))).1
    · rw [h]
      decide
  have henc : encodeSegs (d0 :: rest.dropLast) = encodeSegs (e0 :: rest2.dropLast) := by
    have hr1 := List.splitOn_intercalate (encodeSegs (d0 :: rest.dropLast)) '_' hu1
      (by simp [encodeSegs])
    have hr2 := List.splitOn_intercalate (encodeSegs (e0 :: rest2.dropLast)) '_' hu2
      (by simp [encodeSegs])
    rw [← hr1, ← hr2, hX]
  have hsegsEq := encodeSegs_inj henc
  injection hsegsEq with hd0 hdroplast
  -- reassemble the full segment lists
  have hrest_eq : rest = rest2 := by
    have e1 := List.dropLast_append_getLast hne1
    have e2 := List.dropLast_append_getLast hne2
    rw [← e1, ← e2, hdroplast, hy]
  have hsplit_eq : c1.data.splitOn '.' = c2.data.splitOn '.' := by
    rw [hsp1, hsp2, hd0, hrest_eq]
  apply string_ext
  rw [← List.intercalate_splitOn c1.data '.', ← List.intercalate_splitOn c2.data '.',
    hsplit_eq]

/-- C9 counterexample: two distinct relation paths whose aliases collide.
The dotted path `a.b.c.d` and the path `a.b_rel_c.d` (whose middle segment
contains the `_rel_` infix of the alias scheme) both resolve to
`__root_a_rel_b_rel_c_rel.d`, refuting the unconditional no-collision claim. -/
theorem C9_alias_collision_counterexample :
    ("a.b.c.d" : String) ≠ "a.b_rel_c.d" ∧
    resolveRelationAlias "__root" "a.b.c.d" = resolveRelationAlias "__root" "a.b_rel_c.d" ∧
    resolveRelationAlias "__root" "a.b.c.d" = "__root_a_rel_b_rel_c_rel.d" := by
  refine ⟨by decide, by rfl, by rfl⟩

/-- C9 amended: column-path resolution is deterministic (resolving the same
dotted column twice yields the identical alias string), and two relation
paths with at least two segments whose segments contain no underscore and no
parenthesis characters never collide on alias unless they are the same
path. -/
theorem C9_alias_resolution_amended (aliasName c1 c2 : String)
    (h1 : 2 ≤ (c1.data.splitOn '.').length)
    (h2 : 2 ≤ (c2.data.splitOn '.').length)
    (hseg1 : ∀ l ∈ c1.data.splitOn '.',
      ('_' : Char) ∉ l ∧ ('(' : Char) ∉ l ∧ (')' : Char) ∉ l)
    (hseg2 : ∀ l ∈ c2.data.splitOn '.',
      ('_' : Char) ∉ l ∧ ('(' : Char) ∉ l ∧ (')' : Char) ∉ l) :
    resolveRelationAlias aliasName c1 = resolveRelationAlias aliasName c1 ∧
    (resolveRelationAlias aliasName c1 = resolveRelationAlias aliasName c2 → c1 = c2) :=
  ⟨rfl, C9_injectivity_core aliasName c1 c2 h1 h2 hseg1 hseg2⟩

/-- C9 witness: the amended theorem at two concrete relation paths. -/
theorem C9_alias_resolution_amended_witness :
    resolveRelationAlias "__root" "friend.name" = resolveRelationAlias "__root" "friend.name" ∧
    (resolveRelationAlias "__root" "friend.name" = resolveRelationAlias "__root" "group.title" →
      ("friend.name" : String) = "group.title") :=
  C9_alias_resolution_amended "__root" "friend.name" "group.title"
    (by decide) (by decide) (by decide) (by decide)
